import Mathlib

/-!
Shallow embedding of the answer engine of `app1.py` (an ontology-backed
geometry tutoring app).  Python floats are modelled as exact rationals,
owlready2 attribute values as a small inductive universe, and fallible
Python code as `Option`-returning Lean functions.  `math.pi` is modelled
by the decimal literal `3.141592653589793` (the shortest decimal
representation of the double constant).
-/

namespace Tutor

/-- Scalar data value stored on an ontology individual: a Python float
(modelled as an exact rational) or a Python string. -/
inductive Val where
  | num (q : ℚ)
  | vstr (s : String)
  deriving DecidableEq

/-- An owlready2 data attribute as the Python code observes it:
`unset` is Python `None` (an unset functional property), `scalar` a
functional property's single value, `vals` a non-functional property's
value list. -/
inductive Attr where
  | unset
  | scalar (v : Val)
  | vals (l : List Val)
  deriving DecidableEq

/-- A Python value as it can appear in the (name, value) dimension pairs
and as input to `approx_equal`: `None`, a float, a string, or a list. -/
inductive Py where
  | pynone
  | pynum (q : ℚ)
  | pystr (s : String)
  | pylist (l : List Val)
  deriving DecidableEq

/-- Python truthiness of a scalar value (`0.0` and `""` are falsy). -/
def Val.truthy : Val → Bool
  | .num q => q != 0
  | .vstr s => s != ""

/-- Python truthiness of an attribute value (`None` and `[]` are falsy;
a scalar is truthy iff the scalar itself is). -/
def Attr.truthy : Attr → Bool
  | .unset => false
  | .scalar v => v.truthy
  | .vals l => !l.isEmpty

/-- Decimal representation of a rational, modelling Python `str()` on a
float.  Integer-valued floats print as `"2.0"`; non-integers fall back to
a fraction spelling (the real program only ever prints floats whose
decimal expansion terminates, and all concrete inputs used below are
integer-valued). -/
def ratStr (q : ℚ) : String :=
  if q.den = 1 then toString q.num ++ ".0"
  else toString q.num ++ "/" ++ toString q.den

/-- Python `str()` on a scalar ontology value. -/
def valStr : Val → String
  | .num q => ratStr q
  | .vstr s => s

/-- Python `str()` on the values reachable in `dims_for_problem`
(scalars, and the empty list which prints as `"[]"`). -/
def pyStr : Py → String
  | .pynone => "None"
  | .pynum q => ratStr q
  | .pystr s => s
  | .pylist [] => "[]"
  | .pylist (x :: xs) =>
      "[" ++ String.intercalate ", " ((x :: xs).map valStr) ++ "]"

/-- Lower-casing of a Python string, modelling `str.lower()` (character
by character, as the code only ever lower-cases ASCII names). -/
def pyLower (s : String) : String :=
  String.mk (s.data.map Char.toLower)

/-- Membership of a character in a Python string, modelling `c in s`. -/
def containsChar (s : String) (c : Char) : Bool :=
  s.data.any (fun x => x == c)

/-- The token before the first occurrence of a delimiter character,
modelling `s.split(c)[0]`. -/
def beforeFirst (s : String) (c : Char) : String :=
  String.mk (s.data.takeWhile (fun x => x != c))

/-- Numeric value of a digit list (most significant first). -/
def digitsVal (cs : List Char) : ℕ :=
  cs.foldl (fun a c => a * 10 + (c.toNat - 48)) 0

/-- Model of Python `float()` applied to a string: optional sign, then
digits with an optional single decimal point (at least one digit overall).
Exotic forms (exponents, `inf`, `nan`, surrounding whitespace) are not
modelled; they are never produced by the program's own data flow. -/
def parseFloat (s : String) : Option ℚ :=
  let signed : Bool × List Char :=
    match s.data with
    | '-' :: r => (true, r)
    | '+' :: r => (false, r)
    | r => (false, r)
  let intPart := signed.2.takeWhile Char.isDigit
  let rest := signed.2.dropWhile Char.isDigit
  let mag : Option ℚ :=
    match rest with
    | [] =>
        if intPart.isEmpty then none
        else some (mkRat (digitsVal intPart) 1)
    | '.' :: frac =>
        if frac.all Char.isDigit && !(intPart.isEmpty && frac.isEmpty) then
          some (mkRat (digitsVal intPart * 10 ^ frac.length + digitsVal frac)
            (10 ^ frac.length))
        else none
    | _ => none
  match mag with
  | none => none
  | some m => some (if signed.1 then -m else m)

/-- Model of Python `float()` applied to an arbitrary value: floats pass
through, strings are parsed, `None` and lists raise (modelled as `none`,
the callers catch the exception). -/
def pyFloat : Py → Option ℚ
  | .pynum q => some q
  | .pystr s => parseFloat s
  | .pynone => none
  | .pylist _ => none

/-- Model of Python `float()` applied to a scalar ontology value. -/
def valFloat : Val → Option ℚ
  | .num q => some q
  | .vstr s => parseFloat s

/-- The float constant `math.pi`, as the exact rational denoted by its
shortest decimal representation. -/
def mathPi : ℚ := 3.141592653589793

/-- A Dimension individual: a string-valued `dimensionName` property
(exposed as a list) and a `dimensionValue` data attribute. -/
structure Dimension where
  dimensionName : List String
  dimensionValue : Attr
  deriving DecidableEq

/-- A Shape individual: its local `name` and the list of its declared
classes (`is_a`); an entry is `none` for a class-like entry without a
`name` attribute. -/
structure Shape where
  name : String
  is_a : List (Option String)
  deriving DecidableEq

/-- A Problem individual with the attributes the engine reads: a list of
linked Shape individuals, two alternative dimension-list properties, a
legacy inline single dimension, and an optional stored `correctAnswer`. -/
structure Problem where
  name : String
  hasShape : List Shape
  hasProblemDimension : List Dimension
  hasDimension : List Dimension
  dimensionName : List String
  dimensionValue : Attr
  correctAnswer : Attr
  deriving DecidableEq

/-- The raw value the code reads off a dimension individual:
`d.dimensionValue[0] if getattr(d, "dimensionValue", None) and
isinstance(d.dimensionValue, list) else getattr(d, "dimensionValue", None)`. -/
def dimRawVal : Attr → Py
  | .vals (x :: _) => match x with
      | .num q => .pynum q
      | .vstr s => .pystr s
  | .vals [] => .pylist []
  | .scalar (.num q) => .pynum q
  | .scalar (.vstr s) => .pystr s
  | .unset => .pynone

/-- `if val is not None: val = str(val)` — coerce a present value to its
string representation, leave `None` alone. -/
def coerceVal (v : Py) : Py :=
  if v = Py.pynone then v else .pystr (pyStr v)

/-- The (name, value) pair built for one Dimension individual:
`name = d.dimensionName[0] if getattr(d, "dimensionName", None) else ""`,
value as read by `dimRawVal` and then string-coerced. -/
def dimEntry (d : Dimension) : String × Py :=
  (d.dimensionName.headD "", coerceVal (dimRawVal d.dimensionValue))

/-- `dims_for_problem`: the ordered (name, value) pairs of a Problem's
dimensions.  Checks `hasProblemDimension`, then `hasDimension`, then a
single inline dimension on the Problem itself; the first non-empty source
wins and sources are never merged. -/
def dims_for_problem (p : Problem) : List (String × Py) :=
  if !p.hasProblemDimension.isEmpty then
    p.hasProblemDimension.map dimEntry
  else if !p.hasDimension.isEmpty then
    p.hasDimension.map dimEntry
  else if p.dimensionValue.truthy then
    let nm := p.dimensionName.headD ""
    let raw : Py :=
      match p.dimensionValue with
      | .vals (x :: _) => match x with
          | .num q => .pynum q
          | .vstr s => .pystr s
      | .vals [] => .pylist []
      | .scalar (.num q) => .pynum q
      | .scalar (.vstr s) => .pystr s
      | .unset => .pynone
    [(nm, coerceVal raw)]
  else []

/-- The four recognised shape kind names. -/
def kindNames : List String := ["Circle", "Square", "Rectangle", "Triangle"]

/-- Whether an `is_a` entry is a named class whose name is one of the
four known kinds. -/
def isKindTag : Option String → Bool
  | some n => kindNames.contains n
  | none => false

/-- `shape_for_problem`: resolve (shape class name, shape individual)
for a Problem, or (none, none) when it has no linked Shape.  Ordered
fallback: a declared class among the four kinds; else the token before
the first underscore of the individual's own name when it is a kind;
else the first declared class name (possibly a generic one). -/
def shape_for_problem (p : Problem) : Option String × Option Shape :=
  match p.hasShape with
  | [] => (none, none)
  | s :: _ =>
    match s.is_a.find? isKindTag with
    | some c => (c, some s)
    | none =>
      if s.name != "" && containsChar s.name '_' then
        let hint := beforeFirst s.name '_'
        if kindNames.contains hint then (some hint, some s)
        else match s.is_a with
          | [] => (none, some s)
          | first :: _ => (first, some s)
      else match s.is_a with
        | [] => (none, some s)
        | first :: _ => (first, some s)

/-- `get_val` of `compute_answer`: search the dims list for a truthy name
matching one of the accepted aliases (case-insensitively) and safely
convert the found value (`None` on parse failure); if no name matched
and exactly one dimension exists, use that entry's value positionally. -/
def get_val (dims : List (String × Py)) (names : List String) : Option ℚ :=
  match dims.find? (fun nv => nv.1 != "" && (names.map pyLower).contains (pyLower nv.1)) with
  | some nv => pyFloat nv.2
  | none =>
    match dims with
    | [nv] => pyFloat nv.2
    | _ => none

/-- Resolution by name alone (no positional fallback): the first entry
with a truthy, alias-matching name, safely converted.  Used only to state
claims about name-based resolution; `get_val` above is the code's lookup. -/
def namedVal (dims : List (String × Py)) (names : List String) : Option ℚ :=
  match dims.find? (fun nv => nv.1 != "" && (names.map pyLower).contains (pyLower nv.1)) with
  | some nv => pyFloat nv.2
  | none => none

/-- The Rectangle branch of `compute_answer`: name lookup for length and
width; if either is unresolved, and at least two dimensions exist with
non-`None` values, re-read the first two dimension values positionally
(a float parse failure there aborts to `None`). -/
def rectangleAnswer (dims : List (String × Py)) : Option ℚ :=
  match get_val dims ["length", "l"], get_val dims ["width", "w"] with
  | some l, some w => some (l * w)
  | _, _ =>
    match dims with
    | (_, v0) :: (_, v1) :: _ =>
      if v0 ≠ Py.pynone ∧ v1 ≠ Py.pynone then
        match pyFloat v0, pyFloat v1 with
        | some l2, some w2 => some (l2 * w2)
        | _, _ => none
      else none
    | _ => none

/-- The dispatch of `compute_answer` over the resolved shape name and the
collected dims (the Python body tests `shape_name` against the four kind
names in order). -/
def answer_for : Option String → List (String × Py) → Option ℚ
  | some "Circle", dims =>
      match get_val dims ["radius", "r"] with
      | none => none
      | some r => some (mathPi * r * r)
  | some "Square", dims =>
      match get_val dims ["side", "s"] with
      | none => none
      | some s => some (s * s)
  | some "Rectangle", dims => rectangleAnswer dims
  | some "Triangle", dims =>
      match get_val dims ["base", "b"], get_val dims ["height", "h"] with
      | some b, some h => some (0.5 * b * h)
      | _, _ => none
  | _, _ => none

/-- `compute_answer`: the numeric correct answer of a Problem, or `none`
("indeterminate") when it cannot be computed. -/
def compute_answer (p : Problem) : Option ℚ :=
  answer_for (shape_for_problem p).1 (dims_for_problem p)

/-- The fixed relative tolerance of `approx_equal`. -/
def rel_tol : ℚ := 0.02

/-- The fixed absolute tolerance of `approx_equal`. -/
def abs_tol : ℚ := 0.05

/-- `approx_equal`: coerce both inputs with `float()` (any failure is
caught and yields `False`), then compare with mixed absolute/relative
tolerance. -/
def approx_equal (a b : Py) : Bool :=
  match pyFloat a, pyFloat b with
  | some x, some y => decide (|x - y| ≤ max abs_tol (rel_tol * |y|))
  | _, _ => false

/-- The stored `correctAnswer` as the submit route reads it: only a
truthy attribute is consulted (`if stored_answer:`), its first element
(or the scalar itself) is converted with `float()`, and a conversion
failure yields nothing. -/
def storedAnswer (p : Problem) : Option ℚ :=
  if p.correctAnswer.truthy then
    match p.correctAnswer with
    | .vals (x :: _) => valFloat x
    | .vals [] => none
    | .scalar v => valFloat v
    | .unset => none
  else none

/-- Outcome of the grading step of `problem_submit`: either a graded
result (correctness flag plus the expected value), or the distinct
"cannot compute or read correct answer" failure path. -/
inductive GradeResult where
  | graded (is_correct : Bool) (expected : ℚ)
  | cannotGrade
  deriving DecidableEq

/-- The grading decision of `problem_submit` for a parsed numeric
submission: use `compute_answer`; on indeterminate fall back to the
stored `correctAnswer`; if that too is unavailable or unreadable, abort
with the cannot-grade failure instead of grading. -/
def grade_submission (p : Problem) (answer_val : ℚ) : GradeResult :=
  match compute_answer p with
  | some cv => .graded (approx_equal (.pynum answer_val) (.pynum cv)) cv
  | none =>
    match storedAnswer p with
    | some cv => .graded (approx_equal (.pynum answer_val) (.pynum cv)) cv
    | none => .cannotGrade

/-- An Attempt individual, with the properties `problem_submit` sets on
it (the link to the problem and the timestamped name are irrelevant to
the claims and omitted). -/
structure Attempt where
  hasAnswer : List ℚ
  isCorrect : List Bool
  deriving DecidableEq

/-- A Student individual with the attributes the submit route updates. -/
structure Student where
  studentScore : List ℤ
  masteryLevel : List ℚ
  attempts : List Attempt
  deriving DecidableEq

/-- A freshly created Student: owlready2 exposes its yet-unset list
properties as empty lists (the code's `[0]` / `[0.0]` initialisers only
fire when the attribute is missing or `None`, which it is not). -/
def newStudent : Student := { studentScore := [], masteryLevel := [], attempts := [] }

/-- The score/mastery update of `problem_submit` after grading: append
the new Attempt, read the current score (0 when the list is empty),
increment it when correct, and recompute mastery as
`float(curr_score) / float(max(1, num_attempts))` where `num_attempts`
counts the attempts after the append. -/
def submit_update (st : Student) (answer_val : ℚ) (is_correct : Bool) : Student :=
  let attempt : Attempt := { hasAnswer := [answer_val], isCorrect := [is_correct] }
  let new_attempts := st.attempts ++ [attempt]
  let curr_score := st.studentScore.headD 0
  let num_attempts := new_attempts.length
  let curr_score2 := if is_correct then curr_score + 1 else curr_score
  let mastery : ℚ := (curr_score2 : ℚ) / ((max 1 num_attempts : ℕ) : ℚ)
  { studentScore := [curr_score2], masteryLevel := [mastery], attempts := new_attempts }

/-- Fold a log of (submitted answer, graded-correct) pairs through the
submit update, starting from a fresh student. -/
def runSubmits (log : List (ℚ × Bool)) : Student :=
  log.foldl (fun s ac => submit_update s ac.1 ac.2) newStudent

/-- Number of attempts recorded as correct. -/
def countCorrect (l : List Attempt) : ℕ :=
  (l.filter (fun a => a.isCorrect.headD false)).length

/-- A Problem with every attribute empty, used as the base of concrete
test individuals. -/
def emptyProblem : Problem :=
  { name := "", hasShape := [], hasProblemDimension := [], hasDimension := [],
    dimensionName := [], dimensionValue := .unset, correctAnswer := .unset }

/-- A Circle problem with a single dimension named "radius" of value 2. -/
def exCircle2 : Problem :=
  { emptyProblem with
    name := "Prob_Circle_R2",
    hasShape := [{ name := "Circle_inst_Prob_Circle_R2", is_a := [some "Circle"] }],
    hasProblemDimension := [{ dimensionName := ["radius"], dimensionValue := .vals [.num 2] }] }

/-- A Triangle problem whose single dimension has the non-matching name
"x" and value 5. -/
def exTri1 : Problem :=
  { emptyProblem with
    name := "Prob_Tri_X5",
    hasShape := [{ name := "Triangle_inst_Prob_Tri_X5", is_a := [some "Triangle"] }],
    hasProblemDimension := [{ dimensionName := ["x"], dimensionValue := .vals [.num 5] }] }

/-- A Rectangle problem whose single dimension has the non-matching name
"x" and value 7. -/
def exRect1 : Problem :=
  { emptyProblem with
    name := "Prob_Rect_X7",
    hasShape := [{ name := "Rectangle_inst_Prob_Rect_X7", is_a := [some "Rectangle"] }],
    hasProblemDimension := [{ dimensionName := ["x"], dimensionValue := .vals [.num 7] }] }

/-- A Rectangle problem with two unnamed dimensions (5, 6) in order. -/
def exRect56 : Problem :=
  { emptyProblem with
    name := "Prob_Rect_56",
    hasShape := [{ name := "Rectangle_inst_Prob_Rect_56", is_a := [some "Rectangle"] }],
    hasProblemDimension :=
      [{ dimensionName := ["dim1"], dimensionValue := .vals [.num 5] },
       { dimensionName := ["dim2"], dimensionValue := .vals [.num 6] }] }

/-- A Rectangle problem with dimensions named width=3 then length=4. -/
def exRectWL : Problem :=
  { emptyProblem with
    name := "Prob_Rect_WL",
    hasShape := [{ name := "Rectangle_inst_Prob_Rect_WL", is_a := [some "Rectangle"] }],
    hasProblemDimension :=
      [{ dimensionName := ["width"], dimensionValue := .vals [.num 3] },
       { dimensionName := ["length"], dimensionValue := .vals [.num 4] }] }

/-- A problem whose dimension individual has an unset `dimensionValue`:
the pair it contributes carries Python `None`, not a string. -/
def exNoneDim : Problem :=
  { emptyProblem with
    name := "Prob_NoneDim",
    hasProblemDimension := [{ dimensionName := ["r"], dimensionValue := .unset }] }

/-- A problem with no shape (so computation is indeterminate) but a
stored `correctAnswer` of 100. -/
def exStored100 : Problem :=
  { emptyProblem with name := "Prob_Stored100", correctAnswer := .vals [.num 100] }

/-- A problem with no shape and no stored answer at all. -/
def exNoAnswer : Problem := { emptyProblem with name := "Prob_NoAnswer" }

/-- A shape individual with only a generic class tag but a kind-bearing
name, exercising the name-hint fallback of shape resolution. -/
def exHintShape : Shape := { name := "Triangle_Instance_X", is_a := [some "Shape"] }

/-- A problem linked to `exHintShape`. -/
def exHintProblem : Problem := { emptyProblem with hasShape := [exHintShape] }

/-- A Triangle problem with a named base but no height among two
dimensions. -/
def exTriNoHeight : Problem :=
  { emptyProblem with
    name := "Prob_Tri_NoHeight",
    hasShape := [{ name := "Triangle_inst_Prob_Tri_NoHeight", is_a := [some "Triangle"] }],
    hasProblemDimension :=
      [{ dimensionName := ["base"], dimensionValue := .vals [.vstr "3"] },
       { dimensionName := ["x"], dimensionValue := .vals [.vstr "4"] }] }

section Lemmas

/-- Unfolding of the Circle branch of the dispatch. -/
lemma answer_for_circle (d : List (String × Py)) :
    answer_for (some "Circle") d =
      match get_val d ["radius", "r"] with
      | none => none
      | some r => some (mathPi * r * r) := rfl

/-- Unfolding of the Square branch of the dispatch. -/
lemma answer_for_square (d : List (String × Py)) :
    answer_for (some "Square") d =
      match get_val d ["side", "s"] with
      | none => none
      | some s => some (s * s) := rfl

/-- Unfolding of the Rectangle branch of the dispatch. -/
lemma answer_for_rectangle (d : List (String × Py)) :
    answer_for (some "Rectangle") d = rectangleAnswer d := rfl

/-- Unfolding of the Triangle branch of the dispatch. -/
lemma answer_for_triangle (d : List (String × Py)) :
    answer_for (some "Triangle") d =
      match get_val d ["base", "b"], get_val d ["height", "h"] with
      | some b, some h => some (0.5 * b * h)
      | _, _ => none := rfl

/-- When name resolution fails and the dims list is not a singleton, the
whole lookup fails. -/
lemma get_val_eq_none (dims : List (String × Py)) (names : List String)
    (h : namedVal dims names = none) (hlen : dims.length ≠ 1) :
    get_val dims names = none := by
  unfold get_val
  unfold namedVal at h
  cases hf : dims.find?
      (fun nv => nv.1 != "" && (names.map pyLower).contains (pyLower nv.1)) with
  | some nv =>
      rw [hf] at h
      simp only [hf]
      exact h
  | none =>
      simp only [hf]
      match dims, hlen with
      | [], _ => rfl
      | [nv], hlen => exact absurd rfl hlen
      | nv0 :: nv1 :: rest, _ => rfl

/-- A value that converts to a float is not `None`. -/
lemma ne_pynone_of_pyFloat (v : Py) (q : ℚ) (h : pyFloat v = some q) :
    v ≠ Py.pynone := by
  intro hv
  rw [hv] at h
  exact Option.noConfusion h

/-- The Rectangle branch with both sides resolved by the lookup. -/
lemma rectangleAnswer_resolved (dims : List (String × Py)) (l w : ℚ)
    (hl : get_val dims ["length", "l"] = some l)
    (hw : get_val dims ["width", "w"] = some w) :
    rectangleAnswer dims = some (l * w) := by
  unfold rectangleAnswer
  rw [hl, hw]

/-- The Rectangle positional fallback: with a side unresolved and at
least two dimensions whose values parse, the first two values are used. -/
lemma rectangleAnswer_positional (dims : List (String × Py))
    (n0 n1 : String) (v0 v1 : Py) (rest : List (String × Py)) (l2 w2 : ℚ)
    (hor : get_val dims ["length", "l"] = none ∨ get_val dims ["width", "w"] = none)
    (hd : dims = (n0, v0) :: (n1, v1) :: rest)
    (h0 : pyFloat v0 = some l2) (h1 : pyFloat v1 = some w2) :
    rectangleAnswer dims = some (l2 * w2) := by
  have hv0 := ne_pynone_of_pyFloat v0 l2 h0
  have hv1 := ne_pynone_of_pyFloat v1 w2 h1
  subst hd
  unfold rectangleAnswer
  split
  · rename_i l w hL hW
    exfalso
    rcases hor with h | h
    · rw [h] at hL
      exact Option.noConfusion hL
    · rw [h] at hW
      exact Option.noConfusion hW
  · simp only [h0, h1]
    rw [if_pos ⟨hv0, hv1⟩]

/-- The Rectangle branch is indeterminate when a side is unresolved and
fewer than two dimensions exist. -/
lemma rectangleAnswer_short (dims : List (String × Py))
    (hor : get_val dims ["length", "l"] = none ∨ get_val dims ["width", "w"] = none)
    (hlen : dims.length < 2) :
    rectangleAnswer dims = none := by
  unfold rectangleAnswer
  split
  · rename_i l w hL hW
    exfalso
    rcases hor with h | h
    · rw [h] at hL
      exact Option.noConfusion hL
    · rw [h] at hW
      exact Option.noConfusion hW
  · rcases dims with _ | ⟨nv0, _ | ⟨nv1, rest⟩⟩
    · rfl
    · rfl
    · exfalso
      simp only [List.length_cons] at hlen
      omega

/-- The Rectangle branch is indeterminate when a side is unresolved and a
positional value is `None` or fails to parse. -/
lemma rectangleAnswer_badPositional (dims : List (String × Py))
    (n0 n1 : String) (v0 v1 : Py) (rest : List (String × Py))
    (hor : get_val dims ["length", "l"] = none ∨ get_val dims ["width", "w"] = none)
    (hd : dims = (n0, v0) :: (n1, v1) :: rest)
    (hbad : pyFloat v0 = none ∨ pyFloat v1 = none) :
    rectangleAnswer dims = none := by
  subst hd
  unfold rectangleAnswer
  split
  · rename_i l w hL hW
    exfalso
    rcases hor with h | h
    · rw [h] at hL
      exact Option.noConfusion hL
    · rw [h] at hW
      exact Option.noConfusion hW
  · by_cases hnn : v0 ≠ Py.pynone ∧ v1 ≠ Py.pynone
    · rcases hbad with h | h
      · simp only [h]
        rw [if_pos hnn]
      · simp only [h]
        rw [if_pos hnn]
        cases pyFloat v0 <;> rfl
    · simp only []
      rw [if_neg hnn]

/-- The string coercion of a dimension value yields `None` or a string. -/
lemma coerceVal_none_or_str (v : Py) :
    coerceVal v = Py.pynone ∨ ∃ s, coerceVal v = Py.pystr s := by
  unfold coerceVal
  by_cases h : v = Py.pynone
  · left
    rw [if_pos h, h]
  · right
    rw [if_neg h]
    exact ⟨pyStr v, rfl⟩

/-- A string containing a character is not empty (as a Python bool). -/
lemma bne_empty_of_containsChar (s : String) (c : Char)
    (h : containsChar s c = true) : (s != "") = true := by
  rcases s with ⟨data⟩
  cases data with
  | nil => simp [containsChar] at h
  | cons x xs =>
      simp only [bne_iff_ne, ne_eq]
      intro hc
      have hd := congrArg String.data hc
      simp at hd

end Lemmas
/-- Claim C10 (amended): `approx_equal(10.3, 10.0)` returns false (0.3
exceeds the tolerance max(0.05, 0.02·10) = 0.2) and
`approx_equal(10.1, 10.0)` returns true. -/
theorem claim_c10 :
    approx_equal (.pynum 10.3) (.pynum 10.0) = false ∧
    approx_equal (.pynum 10.1) (.pynum 10.0) = true := by
  constructor <;>
    · simp only [approx_equal, pyFloat, decide_eq_false_iff_not, decide_eq_true_eq,
        abs_tol, rel_tol]
      norm_num [abs_of_nonneg, le_max_iff]

/-- Claim C10, counterexample: the claim asserts both comparisons return
true, but `approx_equal(10.3, 10.0)` returns false. -/
theorem claim_c10_counterexample :
    ¬(approx_equal (.pynum 10.3) (.pynum 10.0) = true ∧
      approx_equal (.pynum 10.1) (.pynum 10.0) = true) := by
  intro h
  have h1 := h.1
  simp only [approx_equal, pyFloat, decide_eq_true_eq, abs_tol, rel_tol] at h1
  norm_num [abs_of_nonneg, le_max_iff] at h1

/-- Claim C2: `approx_equal` returns true iff the coerced values satisfy
|a − b| ≤ max(0.05, 0.02·|b|), and returns a definite false (it is a
total function, never an exception) whenever either coercion fails. -/
theorem claim_c2 (a b : Py) :
    (∀ x y, pyFloat a = some x → pyFloat b = some y →
      (approx_equal a b = true ↔ |x - y| ≤ max 0.05 (0.02 * |y|))) ∧
    ((pyFloat a = none ∨ pyFloat b = none) → approx_equal a b = false) := by
  constructor
  · intro x y hx hy
    unfold approx_equal
    rw [hx, hy]
    simp only [decide_eq_true_eq]
    rfl
  · intro h
    unfold approx_equal
    rcases h with h | h
    · rw [h]
    · rw [h]
      cases pyFloat a <;> rfl

/-- Claim C2, witness at concrete inputs. -/
theorem claim_c2_witness :
    approx_equal (.pynum 10.1) (.pynum 10.0) = true ∧
    approx_equal (.pystr "abc") (.pynum 1) = false :=
  ⟨((claim_c2 (.pynum 10.1) (.pynum 10.0)).1 10.1 10.0 rfl rfl).mpr
    (by norm_num [abs_of_nonneg, le_max_iff]),
   (claim_c2 (.pystr "abc") (.pynum 1)).2 (Or.inl rfl)⟩

/-- Claim C7: when `compute_answer` is indeterminate, grading falls back
to the stored `correctAnswer`; when that is unavailable (not truthy) or
unreadable, the submission is reported as the distinct cannot-grade
failure and is never graded. -/
theorem claim_c7 (p : Problem) (a : ℚ) (hc : compute_answer p = none) :
    (∀ cv, storedAnswer p = some cv →
        grade_submission p a = .graded (approx_equal (.pynum a) (.pynum cv)) cv) ∧
    (storedAnswer p = none →
        grade_submission p a = .cannotGrade ∧
        ∀ is_correct expected, grade_submission p a ≠ .graded is_correct expected) := by
  unfold grade_submission
  rw [hc]
  constructor
  · intro cv hcv
    rw [hcv]
  · intro h
    rw [h]
    exact ⟨rfl, fun is_correct expected hne => GradeResult.noConfusion hne⟩

/-- Claim C7, witness: a problem with no computable answer but stored
answer 100 grades a submission of 100 correct; one with no stored answer
cannot be graded. -/
theorem claim_c7_witness :
    grade_submission exStored100 100 = .graded true 100 ∧
    grade_submission exNoAnswer 100 = .cannotGrade := by
  constructor
  · have h := (claim_c7 exStored100 100 rfl).1 100 rfl
    rw [h]
    have : approx_equal (.pynum 100) (.pynum 100) = true := by
      simp only [approx_equal, pyFloat, decide_eq_true_eq]
      norm_num [abs_tol, rel_tol, le_max_iff]
    rw [this]
  · exact ((claim_c7 exNoAnswer 100 rfl).2 rfl).1

/-- Claim C9 (amended): every value in the sequence produced by
`dims_for_problem` is either the string coercion of the underlying value
or Python `None` (when the underlying value was `None`); no value of any
other type appears. -/
theorem claim_c9 (p : Problem) (nv : String × Py)
    (h : nv ∈ dims_for_problem p) :
    nv.2 = Py.pynone ∨ ∃ s, nv.2 = Py.pystr s := by
  unfold dims_for_problem at h
  split at h
  · obtain ⟨d, _, rfl⟩ := List.mem_map.1 h
    exact coerceVal_none_or_str _
  · split at h
    · obtain ⟨d, _, rfl⟩ := List.mem_map.1 h
      exact coerceVal_none_or_str _
    · split at h
      · rcases List.mem_singleton.1 h with rfl
        exact coerceVal_none_or_str _
      · exact absurd h (List.not_mem_nil nv)

/-- Claim C9, witness at a concrete problem. -/
theorem claim_c9_witness :
    Py.pystr "2.0" = Py.pynone ∨ ∃ s, Py.pystr "2.0" = Py.pystr s :=
  claim_c9 exCircle2 ("radius", Py.pystr "2.0") (by decide)

/-- Claim C9, counterexample: a dimension whose value attribute is unset
contributes the pair ("r", None), and None is not a string. -/
theorem claim_c9_counterexample :
    ("r", Py.pynone) ∈ dims_for_problem exNoneDim ∧
    ∀ s, Py.pynone ≠ Py.pystr s :=
  ⟨by decide, fun s h => Py.noConfusion h⟩

/-- Claim C5: each graded attempt increments the score exactly when
correct, the attempt list grows by one, and mastery is recomputed as
score over max(1, attempt count after the append), whose denominator is
never zero; after 3 attempts with 2 correct the mastery is 2/3. -/
theorem claim_c5 :
    (∀ (st : Student) (a : ℚ) (c : Bool),
      (submit_update st a c).studentScore =
        [st.studentScore.headD 0 + (if c then 1 else 0)] ∧
      (submit_update st a c).attempts.length = st.attempts.length + 1 ∧
      (submit_update st a c).masteryLevel =
        [((st.studentScore.headD 0 + (if c then 1 else 0) : ℤ) : ℚ) /
          ((max 1 (st.attempts.length + 1) : ℕ) : ℚ)] ∧
      ((max 1 (st.attempts.length + 1) : ℕ) : ℚ) ≠ 0) ∧
    (runSubmits [(4, true), (5, true), (6, false)]).masteryLevel = [2 / 3] := by
  constructor
  · intro st a c
    have hden : ((max 1 (st.attempts.length + 1) : ℕ) : ℚ) ≠ 0 :=
      Nat.cast_ne_zero.mpr (by omega)
    refine ⟨?_, ?_, ?_, hden⟩
    · cases c <;> simp [submit_update]
    · simp [submit_update]
    · cases c <;> simp [submit_update]
  · have h : (runSubmits [(4, true), (5, true), (6, false)]).masteryLevel =
        [((2 : ℤ) : ℚ) / ((3 : ℕ) : ℚ)] := rfl
    rw [h]
    norm_num

/-- Claim C8: shape resolution follows the ordered fallback chain: a
declared kind tag wins; else the token of the individual's own name
before the first underscore when it is a kind; else the first declared
tag; and a problem without a linked shape resolves to (none, none). -/
theorem claim_c8 (p : Problem) :
    (p.hasShape = [] → shape_for_problem p = (none, none)) ∧
    (∀ s rest, p.hasShape = s :: rest →
      ((∀ c, s.is_a.find? isKindTag = some c → shape_for_problem p = (c, some s)) ∧
       (s.is_a.find? isKindTag = none →
          containsChar s.name '_' = true →
          kindNames.contains (beforeFirst s.name '_') = true →
          shape_for_problem p = (some (beforeFirst s.name '_'), some s)) ∧
       (s.is_a.find? isKindTag = none →
          containsChar s.name '_' = false ∨
            kindNames.contains (beforeFirst s.name '_') = false →
          shape_for_problem p = (s.is_a.headD none, some s)))) := by
  constructor
  · intro h
    unfold shape_for_problem
    rw [h]
  · intro s rest hs
    refine ⟨?_, ?_, ?_⟩
    · intro c hc
      unfold shape_for_problem
      rw [hs]
      simp only [hc]
    · intro hfind hcontains hkind
      unfold shape_for_problem
      rw [hs]
      simp only [hfind]
      rw [if_pos (by rw [bne_empty_of_containsChar s.name '_' hcontains, hcontains]; rfl)]
      rw [if_pos hkind]
    · intro hfind hrest
      unfold shape_for_problem
      rw [hs]
      simp only [hfind]
      rcases hrest with h | h
      · rw [if_neg (by rw [h]; simp)]
        cases s.is_a <;> rfl
      · by_cases hguard : (s.name != "" && containsChar s.name '_') = true
        · rw [if_pos hguard, if_neg (by rw [h]; simp)]
          cases s.is_a <;> rfl
        · rw [if_neg hguard]
          cases s.is_a <;> rfl

/-- Claim C8, witness: a shape individual tagged only with the generic
"Shape" class but named "Triangle_Instance_X" resolves to Triangle via
the name-token fallback. -/
theorem claim_c8_witness :
    shape_for_problem exHintProblem = (some "Triangle", some exHintShape) :=
  ((claim_c8 exHintProblem).2 exHintShape [] rfl).2.1 rfl rfl rfl

/-- Claim C1: for each of the four shape kinds, when the required
dimensions resolve, `compute_answer` returns the closed-form result:
π·r² for Circle, s² for Square, l·w for Rectangle, 0.5·b·h for
Triangle. -/
theorem claim_c1 (p : Problem) :
    ((shape_for_problem p).1 = some "Circle" →
      ∀ r, get_val (dims_for_problem p) ["radius", "r"] = some r →
        compute_answer p = some (mathPi * r * r)) ∧
    ((shape_for_problem p).1 = some "Square" →
      ∀ s, get_val (dims_for_problem p) ["side", "s"] = some s →
        compute_answer p = some (s * s)) ∧
    ((shape_for_problem p).1 = some "Rectangle" →
      ∀ l w, get_val (dims_for_problem p) ["length", "l"] = some l →
        get_val (dims_for_problem p) ["width", "w"] = some w →
        compute_answer p = some (l * w)) ∧
    ((shape_for_problem p).1 = some "Triangle" →
      ∀ b h, get_val (dims_for_problem p) ["base", "b"] = some b →
        get_val (dims_for_problem p) ["height", "h"] = some h →
        compute_answer p = some (0.5 * b * h)) := by
  refine ⟨?_, ?_, ?_, ?_⟩
  · intro hs r hr
    unfold compute_answer
    rw [hs, answer_for_circle, hr]
  · intro hs s hv
    unfold compute_answer
    rw [hs, answer_for_square, hv]
  · intro hs l w hl hw
    unfold compute_answer
    rw [hs, answer_for_rectangle]
    exact rectangleAnswer_resolved _ l w hl hw
  · intro hs b h hb hh
    unfold compute_answer
    rw [hs, answer_for_triangle, hb, hh]

/-- Claim C1, witness: a Circle of radius 2 computes π·2·2, which is
within 0.001 of 12.566. -/
theorem claim_c1_witness :
    compute_answer exCircle2 = some (mathPi * 2 * 2) ∧
    |mathPi * 2 * 2 - 12.566| ≤ 1 / 1000 :=
  ⟨(claim_c1 exCircle2).1 rfl 2 rfl, by norm_num [mathPi, abs_le]⟩

/-- Claim C3 (amended): a Triangle whose base or height is unresolvable
by name is indeterminate, provided the dimension sequence does not have
exactly one entry (the lookup's single-entry positional fallback). -/
theorem claim_c3 (p : Problem)
    (hs : (shape_for_problem p).1 = some "Triangle")
    (hnames : namedVal (dims_for_problem p) ["base", "b"] = none ∨
              namedVal (dims_for_problem p) ["height", "h"] = none)
    (hlen : (dims_for_problem p).length ≠ 1) :
    compute_answer p = none := by
  unfold compute_answer
  rw [hs, answer_for_triangle]
  rcases hnames with hb | hh
  · rw [get_val_eq_none _ _ hb hlen]
  · rw [get_val_eq_none _ _ hh hlen]
    cases get_val (dims_for_problem p) ["base", "b"] <;> rfl

/-- Claim C3, witness: a Triangle with two dimensions and no height name
is indeterminate. -/
theorem claim_c3_witness : compute_answer exTriNoHeight = none :=
  claim_c3 exTriNoHeight rfl (Or.inr rfl) (by decide)

/-- Claim C3, counterexample: a Triangle whose single dimension is named
"x" (matching neither base nor height) is not indeterminate — the
single-entry fallback computes 0.5·5·5. -/
theorem claim_c3_counterexample :
    (shape_for_problem exTri1).1 = some "Triangle" ∧
    namedVal (dims_for_problem exTri1) ["base", "b"] = none ∧
    namedVal (dims_for_problem exTri1) ["height", "h"] = none ∧
    (dims_for_problem exTri1).length = 1 ∧
    compute_answer exTri1 = some (0.5 * 5 * 5) ∧
    compute_answer exTri1 ≠ none :=
  ⟨rfl, rfl, rfl, rfl, rfl, by decide⟩

/-- Claim C4 (amended): Rectangle resolution: when both sides resolve
through the lookup (which includes the single-entry fallback), the
answer is l·w; when a side is unresolved and the first two dimension
values parse, they are used positionally in declaration order; with
fewer than two dimensions, or a first-two value that is None or
unparseable, the answer is indeterminate. -/
theorem claim_c4 (p : Problem)
    (hs : (shape_for_problem p).1 = some "Rectangle") :
    (∀ l w, get_val (dims_for_problem p) ["length", "l"] = some l →
        get_val (dims_for_problem p) ["width", "w"] = some w →
        compute_answer p = some (l * w)) ∧
    (get_val (dims_for_problem p) ["length", "l"] = none ∨
        get_val (dims_for_problem p) ["width", "w"] = none →
      (∀ n0 v0 n1 v1 rest l2 w2,
          dims_for_problem p = (n0, v0) :: (n1, v1) :: rest →
          pyFloat v0 = some l2 → pyFloat v1 = some w2 →
          compute_answer p = some (l2 * w2)) ∧
      ((dims_for_problem p).length < 2 → compute_answer p = none) ∧
      (∀ n0 v0 n1 v1 rest,
          dims_for_problem p = (n0, v0) :: (n1, v1) :: rest →
          pyFloat v0 = none ∨ pyFloat v1 = none →
          compute_answer p = none)) := by
  have hbridge : compute_answer p = rectangleAnswer (dims_for_problem p) := by
    unfold compute_answer
    rw [hs, answer_for_rectangle]
  refine ⟨?_, ?_⟩
  · intro l w hl hw
    rw [hbridge]
    exact rectangleAnswer_resolved _ l w hl hw
  · intro hor
    refine ⟨?_, ?_, ?_⟩
    · intro n0 v0 n1 v1 rest l2 w2 hd h0 h1
      rw [hbridge]
      exact rectangleAnswer_positional _ n0 n1 v0 v1 rest l2 w2 hor hd h0 h1
    · intro hlen
      rw [hbridge]
      exact rectangleAnswer_short _ hor hlen
    · intro n0 v0 n1 v1 rest hd hbad
      rw [hbridge]
      exact rectangleAnswer_badPositional _ n0 n1 v0 v1 rest hor hd hbad

/-- Claim C4, witness: two unnamed dimensions (5, 6) give 30 by the
positional fallback, and width=3, length=4 give 12 by the named match. -/
theorem claim_c4_witness :
    compute_answer exRect56 = some 30 ∧ compute_answer exRectWL = some 12 := by
  constructor
  · have h := (((claim_c4 exRect56) rfl).2 (Or.inl rfl)).1
      "dim1" (Py.pystr "5.0") "dim2" (Py.pystr "6.0") [] 5 6 rfl rfl rfl
    rw [h]
    norm_num
  · have h := ((claim_c4 exRectWL) rfl).1 4 3 rfl rfl
    rw [h]
    norm_num

/-- Claim C4, counterexample: a Rectangle whose single dimension is
named "x" with value 7 is not indeterminate as the claim requires — the
lookup's single-entry fallback supplies 7 for both sides, giving 49. -/
theorem claim_c4_counterexample :
    (shape_for_problem exRect1).1 = some "Rectangle" ∧
    namedVal (dims_for_problem exRect1) ["length", "l"] = none ∧
    namedVal (dims_for_problem exRect1) ["width", "w"] = none ∧
    (dims_for_problem exRect1).length = 1 ∧
    compute_answer exRect1 = some (7 * 7) ∧
    compute_answer exRect1 ≠ none :=
  ⟨rfl, rfl, rfl, rfl, rfl, by decide⟩

/-- Appending one attempt adds its correctness flag to the correct
count. -/
lemma countCorrect_append (l : List Attempt) (a : Attempt) :
    countCorrect (l ++ [a]) =
      countCorrect l + (if a.isCorrect.headD false then 1 else 0) := by
  unfold countCorrect
  rw [List.filter_append, List.length_append]
  congr 1
  rcases a with ⟨ans, flags⟩
  rcases flags with _ | ⟨b, rest⟩
  · simp [List.filter_cons]
  · cases b <;> simp [List.filter_cons]

/-- Score/attempt-count/mastery invariant of folding graded submissions:
if the stored score equals the number of correct attempts, this is
preserved, the attempt count grows by the log length, and after at least
one submission the mastery equals score over max(1, attempt count). -/
lemma submit_fold (log : List (ℚ × Bool)) :
    ∀ st : Student,
      st.studentScore.headD 0 = (countCorrect st.attempts : ℤ) →
      (log.foldl (fun s ac => submit_update s ac.1 ac.2) st).studentScore.headD 0 =
          (countCorrect
            (log.foldl (fun s ac => submit_update s ac.1 ac.2) st).attempts : ℤ) ∧
        (log.foldl (fun s ac => submit_update s ac.1 ac.2) st).attempts.length =
          st.attempts.length + log.length ∧
        (log ≠ [] →
          (log.foldl (fun s ac => submit_update s ac.1 ac.2) st).masteryLevel =
            [((countCorrect
                  (log.foldl (fun s ac => submit_update s ac.1 ac.2) st).attempts : ℤ) : ℚ) /
              ((max 1
                  (log.foldl (fun s ac => submit_update s ac.1 ac.2) st).attempts.length : ℕ) :
                ℚ)]) := by
  induction log with
  | nil =>
      intro st h
      exact ⟨h, by simp, fun hne => absurd rfl hne⟩
  | cons p rest ih =>
      intro st h
      rw [List.foldl_cons]
      have hatt : (submit_update st p.1 p.2).attempts =
          st.attempts ++ [{ hasAnswer := [p.1], isCorrect := [p.2] }] := rfl
      have hcc : countCorrect (submit_update st p.1 p.2).attempts =
          countCorrect st.attempts + (if p.2 then 1 else 0) := by
        rw [hatt, countCorrect_append]
        rfl
      have h2 : st.studentScore.head?.getD 0 = (countCorrect st.attempts : ℤ) := by
        simpa using h
      have hscore2 : (submit_update st p.1 p.2).studentScore.headD 0 =
          (countCorrect (submit_update st p.1 p.2).attempts : ℤ) := by
        rw [hcc]
        cases hp : p.2 <;> simp [submit_update, hp, h2]
      obtain ⟨i1, i2, i3⟩ := ih (submit_update st p.1 p.2) hscore2
      have hlen2 : (submit_update st p.1 p.2).attempts.length =
          st.attempts.length + 1 := by
        rw [hatt]
        simp
      refine ⟨i1, ?_, ?_⟩
      · rw [i2, hlen2]
        simp only [List.length_cons]
        omega
      · intro _
        rcases hrest : rest with _ | ⟨q, rest2⟩
        · subst hrest
          have hmast : (submit_update st p.1 p.2).masteryLevel =
              [(((submit_update st p.1 p.2).studentScore.headD 0 : ℤ) : ℚ) /
                ((max 1 (submit_update st p.1 p.2).attempts.length : ℕ) : ℚ)] := by
            cases hp : p.2 <;> simp [submit_update, hp]
          simp only [List.foldl_nil]
          rw [hmast, hscore2]
        · subst hrest
          exact i3 (List.cons_ne_nil q rest2)

/-- Claim C6: after any nonempty sequence of graded submissions starting
from a fresh student, the stored mastery is exactly the number of
correct attempts over the total number of attempts, and lies in [0, 1]. -/
theorem claim_c6 (log : List (ℚ × Bool)) (hne : log ≠ []) :
    (runSubmits log).masteryLevel =
      [((countCorrect (runSubmits log).attempts : ℚ) /
        ((runSubmits log).attempts.length : ℚ))] ∧
    ∀ m ∈ (runSubmits log).masteryLevel, 0 ≤ m ∧ m ≤ 1 := by
  obtain ⟨h1, h2, h3⟩ := submit_fold log newStudent rfl
  have hrun : runSubmits log = log.foldl (fun s ac => submit_update s ac.1 ac.2) newStudent := rfl
  have hlen : (runSubmits log).attempts.length = log.length := by
    rw [hrun, h2]
    simp [newStudent]
  have hpos : 0 < log.length := List.length_pos.mpr hne
  have hmax : max 1 (runSubmits log).attempts.length =
      (runSubmits log).attempts.length := by
    rw [hlen]
    omega
  have hm := h3 hne
  rw [← hrun] at hm
  rw [hm, hmax, Int.cast_natCast]
  refine ⟨rfl, ?_⟩
  intro m hmem
  rcases List.mem_singleton.1 hmem with rfl
  have hle : countCorrect (runSubmits log).attempts ≤ (runSubmits log).attempts.length :=
    List.length_filter_le _ _
  have hposq : (0 : ℚ) < ((runSubmits log).attempts.length : ℚ) := by
    rw [hlen]
    exact_mod_cast hpos
  constructor
  · positivity
  · rw [div_le_one hposq]
    exact_mod_cast hle

/-- Claim C6, witness at a concrete single-submission log. -/
theorem claim_c6_witness :
    (runSubmits [(10, true)]).masteryLevel =
      [((countCorrect (runSubmits [(10, true)]).attempts : ℚ) /
        ((runSubmits [(10, true)]).attempts.length : ℚ))] ∧
    ∀ m ∈ (runSubmits [(10, true)]).masteryLevel, 0 ≤ m ∧ m ≤ 1 :=
  claim_c6 [(10, true)] (by simp)


end Tutor
